import Mathlib

/-!
Verification of the `dummy-server` chat gateway (`src/server.ts`).

The file embeds the one piece of real logic of the service — the message-list
validator (`validateMessagePattern` plus the zod schema on `POST /chat`), the
SSE stream framer, the `streamText` call construction, and the 404 fallback —
as executable Lean definitions, and proves the testable properties of the
specification about them.
-/

/-- The message role union type `"user" | "assistant"` of `server.ts`. -/
inductive Role where
  | user
  | assistant
deriving DecidableEq

/-- The `Message` type of `server.ts`: a role and a content string. -/
structure Message where
  role : Role
  content : String
deriving DecidableEq

/-- The alternation loop of `validateMessagePattern` (`server.ts` lines
200-204): for each `i` from 1, return `false` when `messages[i].role ===
messages[i-1].role`; equivalently, adjacent roles must be pairwise distinct. -/
def adjacentRolesDistinct : List Message → Bool
  | [] => true
  | [_] => true
  | a :: b :: rest => (a.role ≠ b.role) && adjacentRolesDistinct (b :: rest)

/-- `validateMessagePattern` of `server.ts` (lines 192-220): the last message
must be from the user (`messages.at(-1)?.role !== "user"` rejects, so the empty
list is rejected here), adjacent messages must not share a role, and the first
role must match the parity of the length (odd count starts with `user`, even
count starts with `assistant`). -/
def validateMessagePattern (messages : List Message) : Bool :=
  if messages.getLast?.map Message.role ≠ some Role.user then
    false
  else if adjacentRolesDistinct messages = false then
    false
  else
    match messages with
    | [] => false
    | firstMessage :: _ =>
      if messages.length % 2 = 1 ∧ firstMessage.role ≠ Role.user then
        false
      else if ¬ messages.length % 2 = 1 ∧ firstMessage.role ≠ Role.assistant then
        false
      else
        true

/-- Spec sub-rule 1 (spec §4.1 check 3): "The last message's role must be
`user`." -/
def SpecLastUser (ms : List Message) : Prop :=
  ms.getLast?.map Message.role = some Role.user

/-- Spec sub-rule 2 (spec §4.1 check 3): "No two adjacent messages share a
role." -/
def SpecAlternate (ms : List Message) : Prop :=
  ms.Chain' fun x y => x.role ≠ y.role

/-- Spec sub-rule 3 (spec §4.1 check 3): "If the list length is odd, the first
message's role must be `user`; if even, it must be `assistant`." -/
def SpecParity (ms : List Message) : Prop :=
  (ms.length % 2 = 1 → ms.head?.map Message.role = some Role.user) ∧
  (ms.length % 2 = 0 → ms.head?.map Message.role = some Role.assistant)

instance : DecidablePred SpecLastUser := fun ms =>
  inferInstanceAs (Decidable (ms.getLast?.map Message.role = some Role.user))

instance : DecidablePred SpecAlternate := fun ms =>
  inferInstanceAs (Decidable (ms.Chain' fun (x y : Message) => x.role ≠ y.role))

instance : DecidablePred SpecParity := fun ms =>
  inferInstanceAs
    (Decidable ((ms.length % 2 = 1 → ms.head?.map Message.role = some Role.user) ∧
      (ms.length % 2 = 0 → ms.head?.map Message.role = some Role.assistant)))

/-- One entry of the `details` array built by the `zValidator` hook
(`server.ts` lines 83-87): a dot-joined path, a human-readable message and a
machine-readable zod issue code. -/
structure Issue where
  path : String
  message : String
  code : String
deriving DecidableEq

/-- The zod issue raised by `z.string().min(1, "Message content cannot be
empty")` for the message at index `i`, with its dot-joined path. -/
def emptyContentIssue (i : Nat) : Issue :=
  ⟨"messages." ++ toString i ++ ".content", "Message content cannot be empty", "too_small"⟩

/-- The zod issue raised by `.min(1, "Messages array cannot be empty")` on the
`messages` array. -/
def arrayMinIssue : Issue :=
  ⟨"messages", "Messages array cannot be empty", "too_small"⟩

/-- The zod issue raised when `.refine(validateMessagePattern, ...)` fails. -/
def patternIssue : Issue :=
  ⟨"messages",
   "Messages must alternate between user and assistant roles, and the last message must be from the user.",
   "custom"⟩

/-- Element-wise issues of the zod array schema: each message whose content
fails `z.string().min(1)` contributes one issue at its index, in index order.
`i` is the index of the first element of the remaining list. -/
def contentIssuesFrom : Nat → List Message → List Issue
  | _, [] => []
  | i, m :: rest =>
    (if m.content.length < 1 then [emptyContentIssue i] else []) ++
      contentIssuesFrom (i + 1) rest

/-- All issues the zod schema of `POST /chat` collects for a message list, in
zod's order: the array `.min(1)` check first, then the per-element checks,
then the `.refine(validateMessagePattern)` check (zod runs the refinement when
the base parse produced a value, even a dirty one). -/
def zodIssues (ms : List Message) : List Issue :=
  (if ms.length < 1 then [arrayMinIssue] else []) ++
    contentIssuesFrom 0 ms ++
    (if validateMessagePattern ms then [] else [patternIssue])

/-- The validation outcome of the `POST /chat` zod schema: `result.success`
holds exactly when no issue was produced, and a failed parse carries the issue
list. -/
def validateChat (ms : List Message) : Except (List Issue) (List Message) :=
  if zodIssues ms = [] then Except.ok ms else Except.error (zodIssues ms)

/-- The body of the 400 response built by the `zValidator` hook. -/
structure ValidationErrorBody where
  error : String
  details : List Issue
deriving DecidableEq

/-- The `zValidator` hook (`server.ts` lines 78-92): on failure it answers
status 400 with body `{error: "Validation Error", details}`; on success it
returns no response and lets the route handler run. -/
def chatValidateResponse (ms : List Message) : Option (Nat × ValidationErrorBody) :=
  match validateChat ms with
  | Except.error issues => some (400, ⟨"Validation Error", issues⟩)
  | Except.ok _ => none

/-- One hexadecimal digit, lowercase, as `Number.prototype.toString(16)`
produces inside `JSON.stringify`'s control-character escapes. -/
def hexDigit (n : Nat) : Char :=
  if n < 10 then Char.ofNat (48 + n) else Char.ofNat (87 + n)

/-- The escape `JSON.stringify` applies to one character of a string value. -/
def escapeJsonChar (c : Char) : String :=
  if c = '"' then "\\\""
  else if c = '\\' then "\\\\"
  else if c = '\x08' then "\\b"
  else if c = '\x0c' then "\\f"
  else if c = '\n' then "\\n"
  else if c = '\r' then "\\r"
  else if c = '\t' then "\\t"
  else if c.toNat < 0x20 then
    "\\u00" ++ String.singleton (hexDigit (c.toNat / 16)) ++
      String.singleton (hexDigit (c.toNat % 16))
  else String.singleton c

/-- `JSON.stringify` of a string value: the escaped characters between double
quotes. -/
def jsonQuote (s : String) : String :=
  "\"" ++ String.join (s.toList.map escapeJsonChar) ++ "\""

/-- The SSE event the framer emits per fragment (`server.ts` line 128):
`data: ` followed by `JSON.stringify({content: chunk})` and a blank line. -/
def sseContentEvent (chunk : String) : String :=
  "data: " ++ ("\x7b\"content\":" ++ jsonQuote chunk ++ "\x7d") ++ "\n\n"

/-- The final SSE event on normal exhaustion (`server.ts` line 133). -/
def sseDoneEvent : String :=
  "data: [DONE]\n\n"

/-- The SSE event emitted by the catch branch on a mid-stream failure
(`server.ts` lines 139-141): `JSON.stringify({error: "Stream error
occurred"})` framed as one event. -/
def sseErrorEvent : String :=
  "data: " ++ ("\x7b\"error\":" ++ jsonQuote "Stream error occurred" ++ "\x7d") ++ "\n\n"

/-- How the adapter's `result.textStream` iteration ends: normal exhaustion,
or a failure surfaced while iterating. -/
inductive StreamOutcome where
  | ok
  | failed
deriving DecidableEq

/-- An adapter-produced stream as the framer observes it: the fragments the
iteration yields before it ends, and how it ends. -/
structure AdapterStream where
  fragments : List String
  outcome : StreamOutcome
deriving DecidableEq

/-- The `ReadableStream.start` body (`server.ts` lines 124-145): one content
event per fragment in order; then `[DONE]` and close on normal exhaustion, or
the single error event and close when the iteration fails. -/
def sseEvents (s : AdapterStream) : List String :=
  match s.outcome with
  | StreamOutcome.ok => s.fragments.map sseContentEvent ++ [sseDoneEvent]
  | StreamOutcome.failed => s.fragments.map sseContentEvent ++ [sseErrorEvent]

/-- The streaming `Response` of the chat route (`server.ts` lines 148-156):
the status is the `Response` default 200 — fixed before any stream event is
produced — paired with the framed events. -/
def chatStreamResponse (s : AdapterStream) : Nat × List String :=
  (200, sseEvents s)

/-- The role union accepted by the provider call, which adds `system` to the
request roles. -/
inductive ProviderRole where
  | system
  | user
  | assistant
deriving DecidableEq

/-- One element of the `messages` array handed to `streamText`. -/
structure ProviderMessage where
  role : ProviderRole
  content : String
deriving DecidableEq

/-- A request `Message` viewed as a provider message, unchanged. -/
def liftMessage (m : Message) : ProviderMessage :=
  ⟨match m.role with
    | Role.user => ProviderRole.user
    | Role.assistant => ProviderRole.assistant,
   m.content⟩

/-- The fixed system instruction of `server.ts` line 110. -/
def systemInstruction : ProviderMessage :=
  ⟨ProviderRole.system,
   "You are a helpful assistant. Keep all your responses on topic and professional. Do not deviate from the question being asked. Return your responses in markdown format."⟩

/-- The fixed model identifier of `server.ts` line 106. -/
def modelId : String :=
  "deepseek/deepseek-chat-v3.1:free"

/-- The arguments relevant here of the `streamText` call. -/
structure StreamTextCall where
  model : String
  messages : List ProviderMessage
deriving DecidableEq

/-- The `streamText` invocation of `server.ts` lines 105-118: the fixed model
identifier, and the system instruction followed by the validated messages. -/
def buildStreamTextCall (ms : List Message) : StreamTextCall :=
  ⟨modelId, systemInstruction :: ms.map liftMessage⟩

/-- The route/method pairs for which `server.ts` registers a handler before
the `app.all("*")` fallback: `POST /chat`, `GET /health`, and `OPTIONS` on any
path. -/
def routeRegistered (method path : String) : Bool :=
  (method = "POST" && path = "/chat") ||
    (method = "GET" && path = "/health") ||
    method = "OPTIONS"

/-- The body shape produced by the global error handler for an
`HTTPException` (`server.ts` lines 40-48). -/
structure ErrorBody where
  error : String
  message : String
deriving DecidableEq

/-- The `HTTPException` thrown by the `app.all("*")` fallback (`server.ts`
lines 183-188). -/
def fallbackException (method path : String) : Nat × String :=
  (404, "Route " ++ method ++ " " ++ path ++ " not found")

/-- The global `onError` handler applied to an `HTTPException`: status and
`{error: "HTTP Exception", message}` body. -/
def onErrorResponse (e : Nat × String) : Nat × ErrorBody :=
  (e.1, ⟨"HTTP Exception", e.2⟩)

/-- Dispatch of a request that reaches the router: requests matching a
registered route are handled by it (`none` here); everything else falls into
the `app.all("*")` fallback whose exception the global handler serializes. -/
def dispatchUnregistered (method path : String) : Option (Nat × ErrorBody) :=
  if routeRegistered method path then none
  else some (onErrorResponse (fallbackException method path))

instance decEqExcept {e a : Type} [DecidableEq e] [DecidableEq a] :
    DecidableEq (Except e a) := fun x y =>
  match x, y with
  | Except.error u, Except.error v =>
    if h : u = v then isTrue (by rw [h]) else isFalse fun hc => h (by cases hc; rfl)
  | Except.error _, Except.ok _ => isFalse fun hc => Except.noConfusion hc
  | Except.ok _, Except.error _ => isFalse fun hc => Except.noConfusion hc
  | Except.ok u, Except.ok v =>
    if h : u = v then isTrue (by rw [h]) else isFalse fun hc => h (by cases hc; rfl)

/-- The accepted example of spec §8: length 3, odd, starts user, alternates,
ends user. -/
def exAccepted : List Message :=
  [⟨Role.user, "hi"⟩, ⟨Role.assistant, "hello"⟩, ⟨Role.user, "how are you"⟩]

/-- The input of spec §8's second example: `[{assistant,"hi"},{user,"hello"}]`,
length 2, even, starting with assistant. -/
def exEvenStart : List Message :=
  [⟨Role.assistant, "hi"⟩, ⟨Role.user, "hello"⟩]

/-- A list in which two messages both have empty content. -/
def exTwoEmpty : List Message :=
  [⟨Role.user, ""⟩, ⟨Role.assistant, ""⟩]

/-- An adapter stream that fails after one fragment. -/
def exFailedStream : AdapterStream :=
  ⟨["Hel"], StreamOutcome.failed⟩

/-- The simpler predicate of the refinement claim C9, from its words: the
last role is `user` and roles strictly alternate. -/
def lastUserAndAlternates (ms : List Message) : Bool :=
  decide (ms.getLast?.map Message.role = some Role.user) && adjacentRolesDistinct ms

/-- A single-message list used as a concrete instance. -/
def exSingleUser : List Message :=
  [⟨Role.user, "hi"⟩]

theorem adjacentRolesDistinct_iff (ms : List Message) :
    adjacentRolesDistinct ms = true ↔ SpecAlternate ms := by
  induction ms with
  | nil => simp [adjacentRolesDistinct, SpecAlternate]
  | cons a rest ih =>
    cases rest with
    | nil => simp [adjacentRolesDistinct, SpecAlternate]
    | cons b rest2 =>
      simp only [adjacentRolesDistinct, Bool.and_eq_true, decide_eq_true_eq,
        SpecAlternate, List.chain'_cons] at ih ⊢
      exact and_congr_right fun _ => ih

theorem validateMessagePattern_iff (ms : List Message) :
    validateMessagePattern ms = true ↔
      ms ≠ [] ∧ SpecLastUser ms ∧ SpecAlternate ms ∧ SpecParity ms := by
  cases ms with
  | nil => simp [validateMessagePattern]
  | cons a rest =>
    have hhead : (a :: rest).head?.map Message.role = some a.role := rfl
    have hiff := adjacentRolesDistinct_iff (a :: rest)
    rw [validateMessagePattern]
    split
    · rename_i h1
      simp only [ne_eq] at h1
      simp [SpecLastUser, h1]
    · rename_i h1
      simp only [ne_eq, not_not] at h1
      split
      · rename_i h2
        have h2' : ¬ SpecAlternate (a :: rest) := by
          rw [← hiff, h2]; simp
        simp [h2']
      · rename_i h2
        have h2' : SpecAlternate (a :: rest) := by
          rw [← hiff]
          cases hx : adjacentRolesDistinct (a :: rest)
          · exact absurd hx h2
          · rfl
        split
        · rename_i h3
          have hnp : ¬ SpecParity (a :: rest) := by
            intro hp
            have := hp.1 h3.1
            rw [hhead] at this
            exact h3.2 (Option.some.inj this)
          simp [hnp]
        · rename_i h3
          split
          · rename_i h4
            have hnp : ¬ SpecParity (a :: rest) := by
              intro hp
              have hlen : (a :: rest).length % 2 = 0 := by
                rcases Nat.mod_two_eq_zero_or_one (a :: rest).length with h | h
                · exact h
                · exact absurd h h4.1
              have := hp.2 hlen
              rw [hhead] at this
              exact h4.2 (Option.some.inj this)
            simp [hnp]
          · rename_i h4
            push_neg at h3 h4
            have hpar : SpecParity (a :: rest) := by
              constructor
              · intro hodd
                rw [hhead]
                exact congrArg some (h3 hodd)
              · intro heven
                rw [hhead]
                exact congrArg some (h4 (by omega))
            simp [SpecLastUser, h1, h2', hpar]

theorem parity_of_alternate_lastUser (ms : List Message) (hne : ms ≠ [])
    (halt : SpecAlternate ms) (hlast : SpecLastUser ms) : SpecParity ms := by
  induction ms with
  | nil => exact absurd rfl hne
  | cons a rest ih =>
    cases rest with
    | nil =>
      have ha : a.role = Role.user := by
        simpa [SpecLastUser, Option.map_some', Option.some_inj] using hlast
      constructor
      · intro _
        simp [ha]
      · intro h
        simp at h
    | cons b rest2 =>
      have hlast' : SpecLastUser (b :: rest2) := by
        simpa [SpecLastUser, List.getLast?_cons_cons] using hlast
      rw [SpecAlternate, List.chain'_cons] at halt
      obtain ⟨hab, halt'⟩ := halt
      have hp := ih (by simp) halt' hlast'
      obtain ⟨hpo, hpe⟩ := hp
      have hlen : (a :: b :: rest2).length = (b :: rest2).length + 1 := by simp
      constructor
      · intro hodd
        have heven : (b :: rest2).length % 2 = 0 := by omega
        have hbrole := hpe heven
        simp only [List.head?_cons, Option.map_some', Option.some_inj] at hbrole ⊢
        cases hA : a.role with
        | user => rfl
        | assistant => exact absurd (hA.trans hbrole.symm) hab
      · intro heven
        have hodd' : (b :: rest2).length % 2 = 1 := by omega
        have hbrole := hpo hodd'
        simp only [List.head?_cons, Option.map_some', Option.some_inj] at hbrole ⊢
        cases hA : a.role with
        | user => exact absurd (hA.trans hbrole.symm) hab
        | assistant => rfl

theorem contentIssuesFrom_eq_nil (i : Nat) (ms : List Message)
    (hc : ∀ m ∈ ms, 1 ≤ m.content.length) : contentIssuesFrom i ms = [] := by
  induction ms generalizing i with
  | nil => rfl
  | cons m rest ih =>
    have hm : 1 ≤ m.content.length := hc m (by simp)
    simp only [contentIssuesFrom, if_neg (by omega : ¬ m.content.length < 1),
      List.nil_append]
    exact ih (i + 1) fun x hx => hc x (by simp [hx])

theorem emptyContentIssue_mem_contentIssuesFrom (start : Nat) (ms : List Message) :
    ∀ i, (hi : i < ms.length) → (ms.get ⟨i, hi⟩).content.length < 1 →
      emptyContentIssue (start + i) ∈ contentIssuesFrom start ms := by
  induction ms generalizing start with
  | nil => intro i hi; simp at hi
  | cons m rest ih =>
    intro i hi hempty
    cases i with
    | zero =>
      simp only [List.get] at hempty
      simp [contentIssuesFrom, hempty]
    | succ j =>
      have hj : j < rest.length := by simpa using hi
      have := ih (start + 1) j hj (by simpa [List.get] using hempty)
      simp only [contentIssuesFrom]
      refine List.mem_append_right _ ?_
      have harith : start + 1 + j = start + (j + 1) := by omega
      rwa [harith] at this

/-- C1: for every non-empty message list whose elements all have non-empty
content and a role in \x7buser, assistant\x7d, the validator accepts exactly
when the three sub-rules of variant A hold (last role `user`, no two adjacent
roles equal, parity-determined first role), and a list violating any sub-rule
is rejected with a non-empty issue list. -/
theorem chat_validator_accepts_iff_pattern (ms : List Message)
    (hne : ms ≠ [])
    (hc : ∀ m ∈ ms, 1 ≤ m.content.length) :
    ((validateChat ms = Except.ok ms) ↔
      SpecLastUser ms ∧ SpecAlternate ms ∧ SpecParity ms) ∧
    (¬ (SpecLastUser ms ∧ SpecAlternate ms ∧ SpecParity ms) →
      ∃ issues, validateChat ms = Except.error issues ∧ issues ≠ []) := by
  have hmin : ¬ ms.length < 1 := by
    cases ms with
    | nil => exact absurd rfl hne
    | cons a rest => simp
  have hci : contentIssuesFrom 0 ms = [] := contentIssuesFrom_eq_nil 0 ms hc
  by_cases hv : validateMessagePattern ms = true
  · have hzn : zodIssues ms = [] := by
      simp [zodIssues, hmin, hci, hv]
    have hok : validateChat ms = Except.ok ms := by
      simp [validateChat, hzn]
    have hrules := (validateMessagePattern_iff ms).mp hv
    constructor
    · exact iff_of_true hok ⟨hrules.2.1, hrules.2.2.1, hrules.2.2.2⟩
    · intro hcon
      exact absurd ⟨hrules.2.1, hrules.2.2.1, hrules.2.2.2⟩ hcon
  · have hzn : zodIssues ms = [patternIssue] := by
      simp [zodIssues, hmin, hci, hv]
    have herr : validateChat ms = Except.error [patternIssue] := by
      simp [validateChat, hzn]
    constructor
    · rw [herr]
      constructor
      · intro h
        exact absurd h (by simp)
      · intro hrules
        exact absurd
          ((validateMessagePattern_iff ms).mpr ⟨hne, hrules.1, hrules.2.1, hrules.2.2⟩) hv
    · intro _
      exact ⟨[patternIssue], herr, by simp⟩

/-- Witness for C1 at the accepted example of spec §8. -/
theorem chat_validator_accepts_iff_pattern_witness :
    exAccepted ≠ [] ∧ (∀ m ∈ exAccepted, 1 ≤ m.content.length) ∧
    (((validateChat exAccepted = Except.ok exAccepted) ↔
      SpecLastUser exAccepted ∧ SpecAlternate exAccepted ∧ SpecParity exAccepted) ∧
     (¬ (SpecLastUser exAccepted ∧ SpecAlternate exAccepted ∧ SpecParity exAccepted) →
       ∃ issues, validateChat exAccepted = Except.error issues ∧ issues ≠ [])) :=
  ⟨by decide, by decide,
   chat_validator_accepts_iff_pattern exAccepted (by decide) (by decide)⟩

/-- C2 counterexample: the claim says `[{assistant,"hi"},{user,"hello"}]` is
rejected with reason pattern invalid; in fact this list satisfies all three
sub-rules (last role user, alternating, even length starting with assistant),
so `validateMessagePattern` returns `true` and the validator accepts it with
no issues. -/
theorem even_start_accepted_cex :
    validateMessagePattern exEvenStart = true ∧
    validateChat exEvenStart = Except.ok exEvenStart ∧
    chatValidateResponse exEvenStart = none := by
  decide

/-- C2 (amended): for the input `[{assistant,"hi"},{user,"hello"}]` (length 2,
even, first role assistant) the validator accepts: the list satisfies all
three of variant A's sub-rules, so no 400 response is produced. -/
theorem even_start_accepted :
    SpecLastUser exEvenStart ∧ SpecAlternate exEvenStart ∧ SpecParity exEvenStart ∧
    validateChat exEvenStart = Except.ok exEvenStart :=
  ⟨by decide, (adjacentRolesDistinct_iff exEvenStart).mp (by decide), by decide, by decide⟩

/-- C3: for every finite fragment sequence that ends by normal exhaustion,
the SSE framer emits exactly one `data:` content event per fragment in
adapter order followed by exactly one `data: [DONE]` event and nothing else;
in particular for `["Hel", "lo", " world"]` it emits exactly those four
events. -/
theorem sse_framing_events (frags : List String) :
    sseEvents ⟨frags, StreamOutcome.ok⟩ =
      frags.map sseContentEvent ++ [sseDoneEvent] ∧
    sseEvents ⟨["Hel", "lo", " world"], StreamOutcome.ok⟩ =
      ["data: \x7b\"content\":\"Hel\"\x7d\n\n",
       "data: \x7b\"content\":\"lo\"\x7d\n\n",
       "data: \x7b\"content\":\" world\"\x7d\n\n",
       "data: [DONE]\n\n"] :=
  ⟨rfl, by decide⟩

/-- C4: when the adapter surfaces a failure mid-stream, the framer emits the
already-produced content events, then exactly one literal
`data: \x7b"error": "Stream error occurred"\x7d` event, and the committed
HTTP status of the streaming response is still 200. -/
theorem sse_error_event_on_failure (s : AdapterStream)
    (h : s.outcome = StreamOutcome.failed) :
    (chatStreamResponse s).1 = 200 ∧
    (chatStreamResponse s).2 = s.fragments.map sseContentEvent ++ [sseErrorEvent] ∧
    sseErrorEvent = "data: \x7b\"error\":\"Stream error occurred\"\x7d\n\n" := by
  refine ⟨rfl, ?_, by decide⟩
  simp [chatStreamResponse, sseEvents, h]

/-- Witness for C4 at a stream that fails after one fragment. -/
theorem sse_error_event_on_failure_witness :
    exFailedStream.outcome = StreamOutcome.failed ∧
    ((chatStreamResponse exFailedStream).1 = 200 ∧
     (chatStreamResponse exFailedStream).2 =
       exFailedStream.fragments.map sseContentEvent ++ [sseErrorEvent] ∧
     sseErrorEvent = "data: \x7b\"error\":\"Stream error occurred\"\x7d\n\n") :=
  ⟨rfl, sse_error_event_on_failure exFailedStream rfl⟩

/-- C5: every failing validation yields HTTP 400 whose `details` list is the
whole issue list — non-empty, each entry a dot-joined path, message and code —
and every message with empty content contributes its own issue, so multiple
independent issues are reported together. -/
theorem failing_validation_reports_all (ms : List Message)
    (h : validateChat ms ≠ Except.ok ms) :
    validateChat ms = Except.error (zodIssues ms) ∧
    zodIssues ms ≠ [] ∧
    chatValidateResponse ms = some (400, ⟨"Validation Error", zodIssues ms⟩) ∧
    (∀ (i : Nat) (hi : i < ms.length), (ms.get ⟨i, hi⟩).content.length < 1 →
      emptyContentIssue i ∈ zodIssues ms) := by
  have hzn : zodIssues ms ≠ [] := by
    intro hz
    exact h (by simp [validateChat, hz])
  have herr : validateChat ms = Except.error (zodIssues ms) := by
    simp [validateChat, hzn]
  refine ⟨herr, hzn, ?_, ?_⟩
  · simp [chatValidateResponse, herr]
  · intro i hi hempty
    have hmem := emptyContentIssue_mem_contentIssuesFrom 0 ms i hi hempty
    rw [Nat.zero_add] at hmem
    unfold zodIssues
    exact List.mem_append_left _ (List.mem_append_right _ hmem)

/-- Witness for C5 at a list with two empty-content messages. -/
theorem failing_validation_reports_all_witness :
    validateChat exTwoEmpty ≠ Except.ok exTwoEmpty ∧
    (validateChat exTwoEmpty = Except.error (zodIssues exTwoEmpty) ∧
     zodIssues exTwoEmpty ≠ [] ∧
     chatValidateResponse exTwoEmpty =
       some (400, ⟨"Validation Error", zodIssues exTwoEmpty⟩) ∧
     (∀ (i : Nat) (hi : i < exTwoEmpty.length),
        (exTwoEmpty.get ⟨i, hi⟩).content.length < 1 →
        emptyContentIssue i ∈ zodIssues exTwoEmpty)) :=
  ⟨by decide, failing_validation_reports_all exTwoEmpty (by decide)⟩

/-- C6: the message list submitted to `streamText` is the fixed system
instruction prepended to the validated list, whose elements keep their
content and order, and the model identifier is the fixed deployment
constant. -/
theorem streamText_call_shape (ms : List Message) :
    (buildStreamTextCall ms).model = "deepseek/deepseek-chat-v3.1:free" ∧
    (buildStreamTextCall ms).messages = systemInstruction :: ms.map liftMessage ∧
    ((buildStreamTextCall ms).messages.drop 1).map ProviderMessage.content =
      ms.map Message.content ∧
    ((buildStreamTextCall ms).messages.drop 1).length = ms.length := by
  refine ⟨rfl, rfl, ?_, by simp [buildStreamTextCall]⟩
  induction ms with
  | nil => rfl
  | cons m rest _ih =>
    simp [buildStreamTextCall, liftMessage]

/-- C7: every request to an unregistered route/method gets HTTP 404 with
`\x7berror: "HTTP Exception", message: "Route <METHOD> <PATH> not found"\x7d`;
in particular `GET /nonexistent` yields a 404 whose message contains `GET`
and `/nonexistent`. -/
theorem unregistered_route_404 (method path : String)
    (h : routeRegistered method path = false) :
    dispatchUnregistered method path =
      some (404, ⟨"HTTP Exception",
        "Route " ++ method ++ " " ++ path ++ " not found"⟩) ∧
    (∃ s t, (fallbackException "GET" "/nonexistent").2 = s ++ "GET" ++ t) ∧
    (∃ s t, (fallbackException "GET" "/nonexistent").2 = s ++ "/nonexistent" ++ t) ∧
    dispatchUnregistered "GET" "/nonexistent" =
      some (404, ⟨"HTTP Exception", "Route GET /nonexistent not found"⟩) := by
  refine ⟨?_, ⟨"Route ", " /nonexistent not found", by decide⟩,
    ⟨"Route GET ", " not found", by decide⟩, by decide⟩
  simp [dispatchUnregistered, h, onErrorResponse, fallbackException]

/-- Witness for C7 at `GET /nonexistent`. -/
theorem unregistered_route_404_witness :
    routeRegistered "GET" "/nonexistent" = false ∧
    (dispatchUnregistered "GET" "/nonexistent" =
      some (404, ⟨"HTTP Exception",
        "Route " ++ "GET" ++ " " ++ "/nonexistent" ++ " not found"⟩) ∧
     (∃ s t, (fallbackException "GET" "/nonexistent").2 = s ++ "GET" ++ t) ∧
     (∃ s t, (fallbackException "GET" "/nonexistent").2 = s ++ "/nonexistent" ++ t) ∧
     dispatchUnregistered "GET" "/nonexistent" =
       some (404, ⟨"HTTP Exception", "Route GET /nonexistent not found"⟩)) :=
  ⟨by decide, unregistered_route_404 "GET" "/nonexistent" (by decide)⟩

/-- C8: validation is deterministic — two runs of the validator on the same
message list give the same result and hence the same accept/reject outcome
and identical issue list. -/
theorem validateChat_two_runs (ms1 ms2 : List Message) (h : ms1 = ms2) :
    validateChat ms1 = validateChat ms2 ∧
    ((validateChat ms1 = Except.ok ms1) ↔ (validateChat ms2 = Except.ok ms2)) := by
  subst h
  exact ⟨rfl, Iff.rfl⟩

/-- Witness for C8 at the accepted example list. -/
theorem validateChat_two_runs_witness :
    exAccepted = exAccepted ∧
    (validateChat exAccepted = validateChat exAccepted ∧
     ((validateChat exAccepted = Except.ok exAccepted) ↔
      (validateChat exAccepted = Except.ok exAccepted))) :=
  ⟨rfl, validateChat_two_runs exAccepted exAccepted rfl⟩

/-- C9: the parity rule is implied by "last role is user" plus alternation,
so `validateMessagePattern` is extensionally equal to the simpler predicate
`lastUserAndAlternates`, and the parity branch never rejects on its own. -/
theorem pattern_parity_redundant (ms : List Message) :
    validateMessagePattern ms = lastUserAndAlternates ms ∧
    (ms ≠ [] → SpecLastUser ms → SpecAlternate ms → SpecParity ms) := by
  constructor
  · have key : validateMessagePattern ms = true ↔ lastUserAndAlternates ms = true := by
      rw [validateMessagePattern_iff]
      simp only [lastUserAndAlternates, Bool.and_eq_true, decide_eq_true_eq,
        adjacentRolesDistinct_iff]
      constructor
      · rintro ⟨hne, hsl, hal, hpar⟩
        exact ⟨hsl, hal⟩
      · rintro ⟨hsl, hal⟩
        have hne : ms ≠ [] := by
          intro he
          rw [he] at hsl
          simp [SpecLastUser] at hsl
        exact ⟨hne, hsl, hal, parity_of_alternate_lastUser ms hne hal hsl⟩
    cases hv : validateMessagePattern ms with
    | true => exact (key.mp hv).symm
    | false =>
      cases hl : lastUserAndAlternates ms with
      | true => exact absurd (key.mpr hl) (by simp [hv])
      | false => rfl
  · exact fun hne hsl hal => parity_of_alternate_lastUser ms hne hal hsl

/-- Witness for C9 at a single-user-message list. -/
theorem pattern_parity_redundant_witness :
    SpecParity exSingleUser ∧
    validateMessagePattern exSingleUser = lastUserAndAlternates exSingleUser :=
  ⟨(pattern_parity_redundant exSingleUser).2 (by decide) (by decide)
      ((adjacentRolesDistinct_iff exSingleUser).mp (by decide)),
   (pattern_parity_redundant exSingleUser).1⟩

/-- C10: `validateMessagePattern` is total on the empty list: the optional
last-element access makes it return `false` there rather than fail, even
outside the non-emptiness guard of the schema. -/
theorem validateMessagePattern_nil_false :
    validateMessagePattern ([] : List Message) = false := by
  decide

